import Mathlib

/-!
Verification development for the micro:bit IoT gateway extension
(src/custom.ts, namespace IoT).  The gateway-mode state and handlers are
shallowly embedded: the mutable globals become fields of a state record,
each MakeCode callback becomes a state-transformer returning the new state
together with the list of radio/serial emissions it performed, and a
JavaScript runtime panic (string method called on null/undefined, or an
explicit device reset) is modelled as an Option-valued result of none.
All functions embed the deviceMode == Mode.Gateway branch of the source;
diagnostic debug lines (gated by showDebug) and LED plot/unplot effects are
external collaborators and produce no modelled output.
-/

/-- Boolean test: does the character list p occur contiguously inside l?
Embeds the semantics of JavaScript String.prototype.includes used by the
source's buffer logic. -/
def seqHas (p : List Char) : List Char → Bool
  | [] => p.isEmpty
  | c :: t => p.isPrefixOf (c :: t) || seqHas p t

/-- JS s.includes(pat) on strings. -/
def strHas (s pat : String) : Bool :=
  seqHas pat.data s.data

/-- JS String.prototype.split with a single-character separator, on char
lists: always returns at least one (possibly empty) piece. -/
def splitChars (sep : Char) : List Char → List (List Char)
  | [] => [[]]
  | c :: rest =>
    let r := splitChars sep rest
    if c = sep then [] :: r
    else
      match r with
      | h :: t => (c :: h) :: t
      | [] => [[c]]

/-- JS s.split(sep) for the single-character separators the source uses. -/
def jsSplit (s : String) (sep : Char) : List String :=
  (splitChars sep s.data).map String.mk

/-- Position of the first occurrence of x, if any. -/
def idxOfAux (x : Int) : List Int → Option Nat
  | [] => none
  | y :: t => if y = x then some 0 else (idxOfAux x t).map (fun n => n + 1)

/-- JS Array.prototype.indexOf: index of the first occurrence, or -1. -/
def jsIndexOf (l : List Int) (x : Int) : Int :=
  match idxOfAux x l with
  | some i => (i : Int)
  | none => -1

/-- JS read of an element of a string-or-null array at a possibly NaN index
(none models NaN).  Returns none for NaN, a negative or out-of-range index
(undefined in JS) and for a null entry: exactly the values on which the
source's subsequent JSON.includes call would panic. -/
def jsGetOpt (l : List (Option String)) : Option Int → Option String
  | none => none
  | some i => if i < 0 then none else (l.getD i.toNat none)

/-- JS read of an element of a string array (none models undefined). -/
def jsGetStr (l : List String) : Option Int → Option String
  | none => none
  | some i => if i < 0 then none else l[i.toNat]?

/-- JS read of a number array at an index that the caller has established to
be in range (the source only indexes device_registrar at positions where the
parallel device_telemetry lookup succeeded and the arrays are aligned). -/
def jsGetInt (l : List Int) (i : Int) : Int :=
  if i < 0 then 0 else l.getD i.toNat 0

/-- In-place array element assignment arr[i] = x at an index the caller has
established to be in range (out-of-range writes never occur in the source:
every write is at an index whose read just succeeded). -/
def jsSet {α : Type} (l : List α) (i : Int) (x : α) : List α :=
  if i < 0 then l else l.set i.toNat x

/-- JS t || d for the optional-argument idiom of setTimerRadioRequest /
setTimerGatewayRequest: an absent argument and the falsy value 0 both give
the default. -/
def jsOr (t : Option Int) (d : Int) : Int :=
  match t with
  | none => d
  | some v => if v = 0 then d else v

/-- Integer-valued model of JS parseFloat on the protocol's id strings: an
optional minus sign followed by a digit prefix; none models NaN.  The
protocol's addresses are small integer ids (spec section 4.4); fractional
address strings are outside the modelled domain. -/
def jsParseFloat (s : String) : Option Int :=
  let digitsVal : List Char → Option Int := fun l =>
    let ds := l.takeWhile Char.isDigit
    if ds.isEmpty then none
    else some ((ds.foldl (fun acc c => acc * 10 + (c.toNat - 48)) 0 : Nat) : Int)
  match s.data with
  | [] => none
  | c :: rest =>
      if c = '-' then (digitsVal rest).map (fun n => -n)
      else digitsVal (c :: rest)

/-- JS == on numbers where none models NaN: NaN compares unequal to
everything, itself included. -/
def jsNumEq : Option Int → Option Int → Bool
  | some a, some b => a == b
  | _, _ => false

/-- The empty telemetry template (const init_telemetry in the source). -/
def init_telemetry : String := "\x7b\"topic\":\"telemetry\"\x7d"

/-- The empty property template (const init_property in the source). -/
def init_property : String := "\x7b\"topic\":\"property\"\x7d"

/-- The empty device-log template (const init_log in the source). -/
def init_log : String := "\x7b\"topic\":\"device_log\"\x7d"

/-- The reopen step shared by all three send functions: if the accumulator
contains a closing brace, drop its last character and append a comma
(source: if JSON.includes then JSON = JSON.substr(0, length-1) + comma). -/
def reopen (J : String) : String :=
  if strHas J "\x7d" then J.dropRight 1 ++ "," else J

/-- One append step of gatewaySendProperty / gatewaySendLog on the
accumulator string: reopen, concatenate the quoted key and rendered value,
close with a brace; if the result contains eom, flush it (second component)
and reset to the given template. -/
def bufAppend (init J : String) (text : String) (num : Int) : String × Option String :=
  let J1 := reopen J
  let J2 := J1 ++ "\"" ++ text ++ "\"" ++ ":" ++ toString num ++ "\x7d"
  if strHas J2 "eom" then (init, some J2) else (J2, none)

/-- One append step of gatewaySendTelemetry on the accumulator string: like
bufAppend but guarded — the field is concatenated only if the reopened
accumulator already contains id or the key is id; the eom check runs on
whichever string the guard produced, exactly as in the source. -/
def telAppend (J : String) (text : String) (num : Int) : String × Option String :=
  let J1 := reopen J
  if strHas J1 "id" || text == "id" then
    let J2 := J1 ++ "\"" ++ text ++ "\"" ++ ":" ++ toString num ++ "\x7d"
    if strHas J2 "eom" then (init_telemetry, some J2) else (J2, none)
  else
    if strHas J1 "eom" then (init_telemetry, some J1) else (J1, none)

/-- An observable emission of the gateway: a key/value radio packet
(radio.sendValue), a broadcast string (radio.sendString), or an uplink line
(serial.writeLine). -/
inductive Out : Type
  | radioValue (name : String) (value : Int)
  | radioString (s : String)
  | serialLine (s : String)
  deriving Repr, DecidableEq

/-- Gateway-mode mutable state: the namespace-level globals of the source
that the claims concern.  cursor is microbit_ID (none models the NaN it
becomes if the modulo in request_next_mb ever divides by zero);
inflight is activeRadioRequest; identity is the identity variable shared
with the command dispatcher (none models NaN). -/
structure GW : Type where
  registrar : List Int
  telem : List (Option String)
  prop : List String
  logbuf : List String
  packetLoss : Nat
  timerRadio : Int
  timerGateway : Int
  cursor : Option Int
  inflight : Bool
  identity : Option Int
  deriving Repr, DecidableEq

/-- External inputs of one gateway step: the monotonic clock, the gateway's
own hardware serial number, the sensor collaborators, the configuration
toggles, and the reported-property set (propString / propValue). -/
structure Env : Type where
  snGW : Int
  now : Int
  temperature : Int
  lightLevel : Int
  accX : Int
  accY : Int
  accZ : Int
  accS : Int
  magX : Int
  magY : Int
  magZ : Int
  magS : Int
  rotP : Int
  rotR : Int
  dP0 : Int
  dP1 : Int
  dP2 : Int
  aP0 : Int
  aP1 : Int
  aP2 : Int
  doTelemetry : Bool
  doProperty : Bool
  doTemperature : Bool
  doLightLevel : Bool
  doAccelerometer : Bool
  doMagneticForce : Bool
  doRotation : Bool
  doCompass : Bool
  doDigitalRead : Bool
  doAnalogRead : Bool
  propString : List String
  propValue : List Int

/-- The serial lines a flush produces: the assembled object then the empty
framing line (two serial.writeLine calls in the source), or nothing. -/
def flushOuts : Option String → List Out
  | some line => [Out.serialLine line, Out.serialLine ""]
  | none => []

/-- setTimerRadioRequest: timerRadioRequest = runningTime + (t or 400). -/
def setTimerRadioRequest (now : Int) (t : Option Int) : Int :=
  now + jsOr t 400

/-- setTimerGatewayRequest: timerGatewayRequest = runningTime + (t or 250). -/
def setTimerGatewayRequest (now : Int) (t : Option Int) : Int :=
  now + jsOr t 250

/-- addMicrobit(sn): if sn is absent from device_registrar, append it, push
the three empty buffer templates, broadcast the setId assignment (with the
id recomputed by indexOf after the push, as in the source) and arm both
timers with the 1000-unit grace deadline; otherwise only debug output. -/
def addMicrobit (s : GW) (sn : Int) (now : Int) : GW × List Out :=
  let id := jsIndexOf s.registrar sn
  if id < 0 then
    let registrar1 := s.registrar ++ [sn]
    let newId := jsIndexOf registrar1 sn
    ({ s with registrar := registrar1,
              telem := s.telem ++ [some init_telemetry],
              prop := s.prop ++ [init_property],
              logbuf := s.logbuf ++ [init_log],
              timerRadio := setTimerRadioRequest now (some 1000),
              timerGateway := setTimerGatewayRequest now (some 1000) },
     [Out.radioString ("setId(" ++ toString newId ++ "," ++ toString sn ++ ")")])
  else
    (s, [])

/-- delMicrobit(sn): if sn is registered and its telemetry slot is non-null,
null the slot and broadcast the deactivation notification; otherwise
nothing. -/
def delMicrobit (s : GW) (sn : Int) : GW × List Out :=
  let id := jsIndexOf s.registrar sn
  if id ≥ 0 then
    match jsGetOpt s.telem (some id) with
    | some _ =>
        ({ s with telem := jsSet s.telem id none },
         [Out.radioString ("setId(-1," ++ toString sn ++ ")")])
    | none => (s, [])
  else
    (s, [])

/-- gatewaySendTelemetry(sn, text, num): sets microbit_ID to indexOf(sn)
(the poll cursor and the emission index are the same variable in the
source), reads that telemetry slot (none result models the JS panic on a
null or undefined slot), applies the guarded append, writes the slot back
and performs the flush writes when the terminator was observed. -/
def gatewaySendTelemetry (s : GW) (sn : Int) (text : String) (num : Int) :
    Option (GW × List Out) :=
  let i := jsIndexOf s.registrar sn
  match jsGetOpt s.telem (some i) with
  | none => none
  | some J =>
      let r := telAppend J text num
      some ({ s with cursor := some i, telem := jsSet s.telem i (some r.1) },
            flushOuts r.2)

/-- gatewaySendProperty(sn, text, num): same shape as gatewaySendTelemetry
on the property buffers, with the unguarded append. -/
def gatewaySendProperty (s : GW) (sn : Int) (text : String) (num : Int) :
    Option (GW × List Out) :=
  let i := jsIndexOf s.registrar sn
  match jsGetStr s.prop (some i) with
  | none => none
  | some J =>
      let r := bufAppend init_property J text num
      some ({ s with cursor := some i, prop := jsSet s.prop i r.1 },
            flushOuts r.2)

/-- gatewaySendLog(sn, text, num): same shape on the device_log buffers. -/
def gatewaySendLog (s : GW) (sn : Int) (text : String) (num : Int) :
    Option (GW × List Out) :=
  let i := jsIndexOf s.registrar sn
  match jsGetStr s.logbuf (some i) with
  | none => none
  | some J =>
      let r := bufAppend init_log J text num
      some ({ s with cursor := some i, logbuf := jsSet s.logbuf i r.1 },
            flushOuts r.2)

/-- The telemetry dispatch table of radio.onReceivedValue: which received
packet names map to which gatewaySendTelemetry key and value.  The source's
mutually exclusive else-if chain on the packet name, written as a lookup;
returns none for names the chain routes elsewhere (log or property data). -/
def telKV (name : String) (value sn rxTime rxSignal : Int) (pl : Nat) :
    Option (String × Int) :=
  if name = "id" then some ("id", value)
  else if name = "sn" then some ("sn", sn)
  else if name = "time" then some ("time", rxTime)
  else if name = "packet" then some ("packetLoss", (pl : Int))
  else if name = "signal" then some ("signalStrength", rxSignal)
  else if name = "light" then some ("lightLevel", value)
  else if name = "accX" then some ("accelerometerX", value)
  else if name = "accY" then some ("accelerometerY", value)
  else if name = "accZ" then some ("accelerometerZ", value)
  else if name = "accS" then some ("accelerometerS", value)
  else if name = "magX" then some ("magneticForceX", value)
  else if name = "magY" then some ("magneticForceY", value)
  else if name = "magZ" then some ("magneticForceZ", value)
  else if name = "magS" then some ("magneticForceS", value)
  else if name = "rotP" then some ("rotationPitch", value)
  else if name = "rotR" then some ("rotationRoll", value)
  else if name = "comp" then some ("compass", value)
  else if name = "dP0" then some ("digitalPinP0", value)
  else if name = "dP1" then some ("digitalPinP1", value)
  else if name = "dP2" then some ("digitalPinP2", value)
  else if name = "aP0" then some ("analogPinP0", value)
  else if name = "aP1" then some ("analogPinP1", value)
  else if name = "aP2" then some ("analogPinP2", value)
  else if name = "temp" then some ("temperature", value)
  else none

/-- The gateway branch of the radio.onReceivedValue handler.  sn is the
transmitted sender serial number, rxTime and rxSignal the received packet's
time and signal-strength properties, now the running clock.  The handler
first re-arms the radio deadline timer, then dispatches: registration,
deactivation, the telemetry catalog, the eom terminator (which additionally
clears the in-flight flag), debug-prefixed names (log path, disabled in the
source), and finally arbitrary names as property data. -/
def onReceivedValue (s : GW) (name : String) (value sn rxTime rxSignal now : Int) :
    Option (GW × List Out) :=
  let s0 := { s with timerRadio := setTimerRadioRequest now none }
  if name = "register" then some (addMicrobit s0 sn now)
  else if name = "del" then some (delMicrobit s0 sn)
  else if name = "eom" then
    (gatewaySendTelemetry s0 sn "eom" value).map
      (fun r => ({ r.1 with inflight := false }, r.2))
  else
    match telKV name value sn rxTime rxSignal s.packetLoss with
    | some kv => gatewaySendTelemetry s0 sn kv.1 kv.2
    | none =>
        if name.take 2 = "d:" then some (s0, [])
        else gatewaySendProperty s0 sn name value

/-- Sequencing of consecutive gatewaySendTelemetry calls with the same
sender, propagating a panic and concatenating the emissions. -/
def sendTelList (s : GW) (sn : Int) : List (String × Int) → Option (GW × List Out)
  | [] => some (s, [])
  | kv :: rest =>
      match gatewaySendTelemetry s sn kv.1 kv.2 with
      | none => none
      | some r =>
          match sendTelList r.1 sn rest with
          | none => none
          | some r2 => some (r2.1, r.2 ++ r2.2)

/-- The key/value sequence gatewaySubmitTelemetry emits, in source order,
under the configuration toggles. -/
def telemetryKVs (e : Env) (pl : Nat) : List (String × Int) :=
  [("id", 0), ("sn", e.snGW), ("time", e.now), ("packetLoss", (pl : Int)),
   ("signal", 100)]
  ++ (if e.doTemperature then [("temperature", e.temperature)] else [])
  ++ (if e.doLightLevel then [("lightLevel", e.lightLevel)] else [])
  ++ (if e.doAccelerometer then
        [("accelerometerX", e.accX), ("accelerometerY", e.accY),
         ("accelerometerZ", e.accZ), ("accelerometerS", e.accS)] else [])
  ++ (if e.doMagneticForce then
        [("magneticForceX", e.magX), ("magneticForceY", e.magY),
         ("magneticForceZ", e.magZ), ("magneticForceS", e.magS)] else [])
  ++ (if e.doRotation then
        [("rotationPitch", e.rotP), ("rotationRoll", e.rotR)] else [])
  ++ (if e.doCompass then [("compass", 1)] else [])
  ++ (if e.doDigitalRead then
        [("digitalPinP0", e.dP0), ("digitalPinP1", e.dP1),
         ("digitalPinP2", e.dP2)] else [])
  ++ (if e.doAnalogRead then
        [("analogPinP0", e.aP0), ("analogPinP1", e.aP1),
         ("analogPinP2", e.aP2)] else [])
  ++ [("eom", 1)]

/-- gatewaySubmitTelemetry: when telemetry is enabled, send the catalog of
the gateway's own readings, terminated by eom. -/
def gatewaySubmitTelemetry (e : Env) (s : GW) : Option (GW × List Out) :=
  if e.doTelemetry then sendTelList s e.snGW (telemetryKVs e s.packetLoss)
  else some (s, [])

/-- Sequencing of consecutive gatewaySendProperty calls with the same
sender. -/
def sendPropList (s : GW) (sn : Int) : List (String × Int) → Option (GW × List Out)
  | [] => some (s, [])
  | kv :: rest =>
      match gatewaySendProperty s sn kv.1 kv.2 with
      | none => none
      | some r =>
          match sendPropList r.1 sn rest with
          | none => none
          | some r2 => some (r2.1, r.2 ++ r2.2)

/-- gatewaySubmitProperty: when properties are enabled and the reported
property set is non-empty, send an id field carrying the current cursor
value, every (propString, propValue) pair in order, then eom.  The cursor
is always a concrete number at this call site (every preceding emission
assigns it), so the unreachable NaN case is read as 0. -/
def gatewaySubmitProperty (e : Env) (s : GW) : Option (GW × List Out) :=
  if e.doProperty && decide (0 < e.propString.length) then
    sendPropList s e.snGW
      ((("id", (s.cursor.getD 0)) :: e.propString.zip e.propValue) ++ [("eom", 1)])
  else some (s, [])

/-- The cursor advance microbit_ID = (microbit_ID + 1) % length, with JS
semantics: a modulo by zero (empty registry) and any arithmetic on an
already-NaN cursor yield NaN (none); % is the JS remainder (sign of the
dividend). -/
def jsModCursor (c : Option Int) (len : Nat) : Option Int :=
  match c with
  | none => none
  | some c => if len = 0 then none else some ((c + 1).tmod (len : Int))

/-- request_next_mb: advance the cursor round-robin; if the telemetry slot
at the new cursor is null/undefined only a debug line is produced; else id 0
pulls the gateway's own telemetry and properties after arming the gateway
timer, and a positive id arms the radio deadline, raises the in-flight flag
and broadcasts the token addressed to that device's serial number. -/
def request_next_mb (e : Env) (s : GW) : Option (GW × List Out) :=
  let c1 := jsModCursor s.cursor s.registrar.length
  let s1 := { s with cursor := c1 }
  match jsGetOpt s1.telem c1 with
  | some _ =>
      match c1 with
      | none => some (s1, [])
      | some c =>
          if c = 0 then
            let s2 := { s1 with timerGateway := setTimerGatewayRequest e.now none }
            match gatewaySubmitTelemetry e s2 with
            | none => none
            | some r =>
                match gatewaySubmitProperty e r.1 with
                | none => none
                | some r2 => some (r2.1, r.2 ++ r2.2)
          else if c > 0 then
            some ({ s1 with timerRadio := setTimerRadioRequest e.now none,
                            inflight := true },
                  [Out.radioValue "token" (jsGetInt s1.registrar c)])
          else some (s1, [])
  | none => some (s1, [])

/-- One tick of runGatewayOrchestrator: while a request is in flight, a
deadline expiry counts one packet loss and immediately requests the next
device; then, if no request is in flight (re-read after the first branch,
as in the source), a fresh request is started. -/
def runGatewayOrchestrator (e : Env) (s : GW) : Option (GW × List Out) :=
  match (if s.inflight then
           (if e.now > s.timerRadio then
              request_next_mb e { s with packetLoss := s.packetLoss + 1 }
            else some (s, []))
         else some (s, [])) with
  | none => none
  | some r1 =>
      if r1.1.inflight = false then
        match request_next_mb e r1.1 with
        | none => none
        | some r2 => some (r2.1, r1.2 ++ r2.2)
      else some r1

/-- invokeCommands(cmd, p1, p2, p3) as it affects modelled state: reset
halts the device (none); setId assigns identity when the second parameter
parses to the gateway's own serial number (parseFloat of a missing
parameter is NaN and the NaN comparison fails); every other command of the
catalog, and any unrecognized name, only drives external collaborators. -/
def invokeCommands (e : Env) (g : GW) (cmd : String)
    (p1 p2 p3 : Option String) : Option GW :=
  if cmd = "reset" then none
  else if cmd = "setId" then
    match jsNumEq (p2.bind jsParseFloat) (some e.snGW), p3 with
    | true, _ => some { g with identity := p1.bind jsParseFloat }
    | false, _ => some g
  else some g

/-- processC2D(s): parse the text RPC.  A generic command (no colon) whose
payload lacks an opening parenthesis panics in the source (split called on
an undefined element), modelled as none; an addressed command is executed
only when the address parses to the device's current identity (NaN never
matches). -/
def processC2D (e : Env) (g : GW) (s : String) : Option GW :=
  if s.isEmpty then some g
  else
    let t0 := jsSplit s ':'
    if t0.length = 1 then
      let t1 := jsSplit s '('
      match t1[1]? with
      | none => none
      | some u =>
          let t2 := jsSplit u ')'
          let t3 := jsSplit (t2.getD 0 "") ','
          invokeCommands e g (t1.getD 0 "") t3[0]? t3[1]? t3[2]?
    else if t0.length = 2 then
      if jsNumEq (jsParseFloat (t0.getD 0 "")) g.identity then
        let t1 := jsSplit (t0.getD 1 "") '('
        match t1[1]? with
        | none => none
        | some u =>
            let t2 := jsSplit u ')'
            let t3 := jsSplit (t2.getD 0 "") ','
            invokeCommands e g (t1.getD 0 "") t3[0]? t3[1]? t3[2]?
      else some g
    else some g

/-- The per-address loop of the serial handler: for each listed address,
rebuild the fully qualified command, execute it locally, then re-broadcast
it.  A local panic mid-loop ends the run (the model discards the trace of
an aborted execution; no settled claim inspects it). -/
def fanOut (e : Env) (tail : String) : GW → List String → Option (GW × List Out)
  | g, [] => some (g, [])
  | g, a :: rest =>
      let cmd := a ++ ":" ++ tail
      match processC2D e g cmd with
      | none => none
      | some g1 =>
          match fanOut e tail g1 rest with
          | none => none
          | some r => some (r.1, Out.radioString cmd :: r.2)

/-- The gateway branch of the serial.onDataReceived handler: one inbound
line, empty lines ignored; one part (no colon) is executed locally then
re-broadcast verbatim; exactly two parts fan out over the comma-separated
address list; any other shape falls through with no effect. -/
def onSerialLine (e : Env) (g : GW) (line : String) : Option (GW × List Out) :=
  if line.isEmpty then some (g, [])
  else
    let t0 := jsSplit line ':'
    if t0.length = 1 then
      match processC2D e g line with
      | none => none
      | some g1 => some (g1, [Out.radioString line])
    else if t0.length = 2 then
      fanOut e (t0.getD 1 "") g (jsSplit (t0.getD 0 "") ',')
    else some (g, [])

/-- A fixed environment for concrete evaluations: all sensors zero, all
toggles off, empty reported-property set, clock at 10. -/
def e0 : Env :=
  ⟨77, 10, 0, 0, 0, 0, 0, 0, 0, 0, 0, 0, 0, 0, 0, 0, 0, 0, 0, 0,
   false, false, false, false, false, false, false, false, false, false,
   [], []⟩

/-- A concrete gateway state for counterexamples and witnesses: three
registered devices with fresh buffers, cursor on device 1, a radio request
in flight, gateway identity 0. -/
def gA : GW :=
  ⟨[100, 200, 300],
   [some init_telemetry, some init_telemetry, some init_telemetry],
   [init_property, init_property, init_property],
   [init_log, init_log, init_log],
   0, 0, 0, some 1, true, some 0⟩

/-- A concrete gateway state whose third registered device is deactivated
(null telemetry slot), with a request in flight past its deadline. -/
def gB : GW :=
  ⟨[100, 200, 300],
   [some init_telemetry, some init_telemetry, none],
   [init_property, init_property, init_property],
   [init_log, init_log, init_log],
   4, 5, 0, some 1, true, some 0⟩

/-- The four per-device arrays have equal length: every registered serial
number has buffers of all three stream kinds at its assigned index. -/
def buffersAligned (s : GW) : Prop :=
  s.telem.length = s.registrar.length ∧ s.prop.length = s.registrar.length ∧
  s.logbuf.length = s.registrar.length

/-- The state gA after the stray temp event from sender 300: only slot 2's
telemetry buffer reopened, radio timer re-armed, cursor moved to 2. -/
def gA1 : GW :=
  ⟨[100, 200, 300],
   [some init_telemetry, some init_telemetry, some "\x7b\"topic\":\"telemetry\","],
   [init_property, init_property, init_property],
   [init_log, init_log, init_log],
   0, 410, 0, some 2, true, some 0⟩

theorem isPrefixOf_ex {p l : List Char} :
    p.isPrefixOf l = true ↔ ∃ t, l = p ++ t := by
  induction p generalizing l with
  | nil => simp [List.isPrefixOf]
  | cons c p ih =>
      cases l with
      | nil => simp [List.isPrefixOf]
      | cons d t =>
          simp only [List.isPrefixOf, Bool.and_eq_true, beq_iff_eq, ih,
            List.cons_append, List.cons.injEq]
          constructor
          · rintro ⟨rfl, u, rfl⟩; exact ⟨u, rfl, rfl⟩
          · rintro ⟨u, rfl, rfl⟩; exact ⟨rfl, u, rfl⟩

theorem seqHas_ex {p l : List Char} :
    seqHas p l = true ↔ ∃ a b, l = a ++ (p ++ b) := by
  induction l with
  | nil =>
      simp only [seqHas, List.isEmpty_iff]
      constructor
      · rintro rfl; exact ⟨[], [], rfl⟩
      · rintro ⟨a, b, h⟩
        rcases List.append_eq_nil.mp h.symm with ⟨rfl, h2⟩
        exact (List.append_eq_nil.mp h2).1
  | cons c t ih =>
      simp only [seqHas, Bool.or_eq_true, isPrefixOf_ex, ih]
      constructor
      · rintro (⟨u, hu⟩ | ⟨a, b, rfl⟩)
        · exact ⟨[], u, by simpa using hu⟩
        · exact ⟨c :: a, b, rfl⟩
      · rintro ⟨a, b, h⟩
        cases a with
        | nil => exact Or.inl ⟨b, by simpa using h⟩
        | cons x a =>
            right
            rcases List.cons.injEq .. ▸ h with ⟨rfl, h2⟩
            exact ⟨a, b, h2⟩

theorem seqHas_append_right {p a b : List Char} (h : seqHas p b = true) :
    seqHas p (a ++ b) = true := by
  rcases seqHas_ex.mp h with ⟨x, y, rfl⟩
  exact seqHas_ex.mpr ⟨a ++ x, y, by simp⟩

theorem seqHas_nil_of {p : List Char} (hp : p ≠ []) : seqHas p [] = false := by
  cases p with
  | nil => exact absurd rfl hp
  | cons c t => simp [seqHas]

theorem seqHas_nil_pat (l : List Char) : seqHas [] l = true := by
  cases l with
  | nil => simp [seqHas]
  | cons c t => simp [seqHas, List.isPrefixOf]

theorem seqHas_cons_drop {p : List Char} {c : Char} {l : List Char}
    (hc : c ∉ p) (h : seqHas p (c :: l) = true) : seqHas p l = true := by
  simp only [seqHas, Bool.or_eq_true] at h
  rcases h with h1 | h2
  · cases p with
    | nil => exact seqHas_nil_pat l
    | cons x p2 =>
        exfalso
        simp only [List.isPrefixOf, Bool.and_eq_true, beq_iff_eq] at h1
        exact hc (by simp [h1.1])
  · exact h2

theorem seqHas_strip {p m l : List Char} (hd : ∀ c ∈ m, c ∉ p)
    (h : seqHas p (m ++ l) = true) : seqHas p l = true := by
  induction m with
  | nil => simpa using h
  | cons c m2 ih =>
      exact ih (fun x hx => hd x (by simp [hx]))
        (seqHas_cons_drop (hd c (by simp)) (by simpa using h))

theorem prefixFit {sep b : List Char} (hs : sep ≠ []) :
    ∀ p : List Char, (∀ c ∈ sep, c ∉ p) →
      ∀ a, p.isPrefixOf (a ++ (sep ++ b)) = true → p.isPrefixOf a = true := by
  intro p
  induction p with
  | nil => intro _ a _; simp [List.isPrefixOf]
  | cons x p2 ih =>
      intro hd a h
      cases a with
      | nil =>
          cases sep with
          | nil => exact absurd rfl hs
          | cons s sep2 =>
              exfalso
              simp only [List.nil_append, List.cons_append, List.isPrefixOf,
                Bool.and_eq_true, beq_iff_eq] at h
              exact hd s (by simp) (by simp [h.1])
      | cons y a2 =>
          simp only [List.cons_append, List.isPrefixOf, Bool.and_eq_true,
            beq_iff_eq] at h ⊢
          refine ⟨h.1, ?_⟩
          exact ih (fun c hc hp => hd c hc (List.mem_cons_of_mem _ hp)) a2 h.2

theorem seqHas_split {p sep : List Char} (hs : sep ≠ [])
    (hd : ∀ c ∈ sep, c ∉ p) :
    ∀ a b, seqHas p (a ++ (sep ++ b)) = true →
      seqHas p a = true ∨ seqHas p b = true := by
  intro a b h
  induction a with
  | nil =>
      right
      exact seqHas_strip hd (by simpa using h)
  | cons c a2 ih =>
      simp only [List.cons_append, seqHas, Bool.or_eq_true] at h ⊢
      rcases h with h1 | h2
      · exact Or.inl (Or.inl (prefixFit hs p hd (c :: a2) (by simpa using h1)))
      · rcases ih h2 with h3 | h3
        · exact Or.inl (Or.inr h3)
        · exact Or.inr h3

theorem seqHas_self_append {p r : List Char} : seqHas p (p ++ r) = true :=
  seqHas_ex.mpr ⟨[], r, rfl⟩

theorem strHas_append_eom (A ns : String) :
    strHas (A ++ "\"" ++ "eom" ++ "\"" ++ ":" ++ ns ++ "\x7d") "eom" = true := by
  unfold strHas
  have hdata : (A ++ "\"" ++ "eom" ++ "\"" ++ ":" ++ ns ++ "\x7d").data
      = (A.data ++ ("\"" : String).data)
        ++ (("eom" : String).data
            ++ (("\"" : String).data ++ ((":" : String).data
                ++ (ns.data ++ ("\x7d" : String).data)))) := by
    simp [String.data_append, List.append_assoc]
  rw [hdata]
  exact seqHas_append_right seqHas_self_append

theorem strHas_concat_eom_false {A k ns : String}
    (hA : strHas A "eom" = false) (hk : strHas k "eom" = false)
    (hn : strHas ns "eom" = false) :
    strHas (A ++ "\"" ++ k ++ "\"" ++ ":" ++ ns ++ "\x7d") "eom" = false := by
  cases hb : strHas (A ++ "\"" ++ k ++ "\"" ++ ":" ++ ns ++ "\x7d") "eom" with
  | false => rfl
  | true =>
      exfalso
      unfold strHas at hb hA hk hn
      have hdata : (A ++ "\"" ++ k ++ "\"" ++ ":" ++ ns ++ "\x7d").data
          = A.data ++ (("\"" : String).data
              ++ (k.data ++ (("\"" : String).data
                  ++ ((":" : String).data ++ (ns.data
                      ++ (("\x7d" : String).data ++ [])))))) := by
        simp [String.data_append, List.append_assoc]
      rw [hdata] at hb
      have hq : ∀ c ∈ ("\"" : String).data, c ∉ ("eom" : String).data := by decide
      have hqn : ("\"" : String).data ≠ [] := by decide
      rcases seqHas_split hqn hq A.data _ hb with h1 | h1
      · exact absurd h1 (by simp [hA])
      · rcases seqHas_split hqn hq k.data _ h1 with h2 | h2
        · exact absurd h2 (by simp [hk])
        · have h3 := seqHas_strip
            (by decide : ∀ c ∈ (":" : String).data, c ∉ ("eom" : String).data)
            (by simpa using h2)
          have hbr : ∀ c ∈ ("\x7d" : String).data, c ∉ ("eom" : String).data := by
            decide
          have hbrn : ("\x7d" : String).data ≠ [] := by decide
          rcases seqHas_split hbrn hbr ns.data [] h3 with h4 | h4
          · exact absurd h4 (by simp [hn])
          · exact absurd h4 (by decide)

/-- C3 counterexample: the terminator test of the assembler is a substring
check, so appending the non-terminator property key geometry (which contains
eom as a substring) to a fresh property buffer flushes it, refuting the
claimed flushes-iff-key-is-eom equivalence. -/
theorem flush_nonterminator_key :
    (bufAppend init_property init_property "geometry" 5).2 =
      some "\x7b\"topic\":\"property\",\"geometry\":5\x7d" ∧
    "geometry" ≠ "eom" := by
  constructor
  · decide
  · decide

/-- C3 amended: an append flushes the buffer exactly when the assembled
string contains eom as a substring.  Consequently, appending the terminator
key eom flushes the whole assembled object exactly once and resets the
buffer to its template (for telemetry, provided the reopened buffer carries
the id guard), and an append whose reopened buffer, key and rendered value
are all eom-free never flushes; a flush is never partial (the single
emitted line is the entire assembled object). -/
theorem flush_iff_terminator_amended (init J k : String) (n : Int) :
    (k = "eom" →
       bufAppend init J k n =
         (init, some (reopen J ++ "\"" ++ k ++ "\"" ++ ":" ++ toString n ++ "\x7d"))) ∧
    (strHas (reopen J) "eom" = false → strHas k "eom" = false →
     strHas (toString n) "eom" = false →
       bufAppend init J k n =
         (reopen J ++ "\"" ++ k ++ "\"" ++ ":" ++ toString n ++ "\x7d", none)) ∧
    (k = "eom" → strHas (reopen J) "id" = true →
       telAppend J k n =
         (init_telemetry,
          some (reopen J ++ "\"" ++ k ++ "\"" ++ ":" ++ toString n ++ "\x7d"))) ∧
    (strHas (reopen J) "eom" = false → strHas k "eom" = false →
     strHas (toString n) "eom" = false →
       (telAppend J k n).2 = none) := by
  refine ⟨?_, ?_, ?_, ?_⟩
  · rintro rfl
    simp [bufAppend, strHas_append_eom]
  · intro hA hk hn
    simp [bufAppend, strHas_concat_eom_false hA hk hn]
  · rintro rfl hid
    simp [telAppend, hid, strHas_append_eom]
  · intro hA hk hn
    by_cases hg : (strHas (reopen J) "id" || k == "id") = true
    · simp [telAppend, hg, strHas_concat_eom_false hA hk hn]
    · simp [telAppend, hg, hA]

/-- C3 witness: the amended flush law evaluated at concrete appends of each
stream kind — a property-stream terminator flush, an ordinary log append,
a telemetry terminator flush on an id-bearing buffer, and a dropped
telemetry append. -/
theorem flush_iff_terminator_witness :
    bufAppend init_property init_property "eom" 1 =
      (init_property,
       some (reopen init_property ++ "\"" ++ "eom" ++ "\"" ++ ":"
             ++ toString (1 : Int) ++ "\x7d")) ∧
    bufAppend init_log init_log "temperature" 21 =
      (reopen init_log ++ "\"" ++ "temperature" ++ "\"" ++ ":"
       ++ toString (21 : Int) ++ "\x7d", none) ∧
    telAppend "\x7b\"topic\":\"telemetry\",\"id\":3\x7d" "eom" 1 =
      (init_telemetry,
       some (reopen "\x7b\"topic\":\"telemetry\",\"id\":3\x7d" ++ "\"" ++ "eom"
             ++ "\"" ++ ":" ++ toString (1 : Int) ++ "\x7d")) ∧
    (telAppend init_telemetry "temperature" 21).2 = none :=
  ⟨(flush_iff_terminator_amended init_property init_property "eom" 1).1 rfl,
   (flush_iff_terminator_amended init_log init_log "temperature" 21).2.1
     (by decide) (by decide) (by decide),
   (flush_iff_terminator_amended init_telemetry
     "\x7b\"topic\":\"telemetry\",\"id\":3\x7d" "eom" 1).2.2.1 rfl (by decide),
   (flush_iff_terminator_amended init_telemetry init_telemetry
     "temperature" 21).2.2.2 (by decide) (by decide) (by decide)⟩

/-- C4 counterexample: appending temp 21 to an empty telemetry buffer does
not leave the buffer unchanged — the guard drops the field, but only after
the reopen step has stripped the closing brace and added the separator, so
the stored buffer becomes the open form. -/
theorem telemetry_guard_buffer_changes :
    (telAppend init_telemetry "temp" 21).1 ≠ init_telemetry ∧
    telAppend init_telemetry "temp" 21 = ("\x7b\"topic\":\"telemetry\",", none) := by
  constructor
  · decide
  · decide

/-- C4 amended: appending temp 21 to an empty telemetry buffer before any
id field drops the field (no temp key is stored and nothing is flushed),
leaving the buffer in the reopened form with its closing brace stripped;
appending id 3, then temp 21, then eom 1 to an empty telemetry buffer
flushes exactly the claimed line and resets the buffer to its template. -/
theorem telemetry_guard_amended :
    (telAppend init_telemetry "temp" 21).2 = none ∧
    strHas (telAppend init_telemetry "temp" 21).1 "temp" = false ∧
    (telAppend init_telemetry "temp" 21).1 = "\x7b\"topic\":\"telemetry\"," ∧
    telAppend init_telemetry "id" 3 = ("\x7b\"topic\":\"telemetry\",\"id\":3\x7d", none) ∧
    telAppend "\x7b\"topic\":\"telemetry\",\"id\":3\x7d" "temp" 21 =
      ("\x7b\"topic\":\"telemetry\",\"id\":3,\"temp\":21\x7d", none) ∧
    telAppend "\x7b\"topic\":\"telemetry\",\"id\":3,\"temp\":21\x7d" "eom" 1 =
      (init_telemetry,
       some "\x7b\"topic\":\"telemetry\",\"id\":3,\"temp\":21,\"eom\":1\x7d") := by
  refine ⟨?_, ?_, ?_, ?_, ?_, ?_⟩ <;> decide

/-- C6 counterexample: appending the terminator to a telemetry buffer that
holds the fields a 1 and b 2 but no id field does not flush at all — the
identity guard drops the eom key (the buffer contains no id substring), so
no line is produced and the buffer is left in reopened form rather than
reset. -/
theorem closure_without_id_not_flushed :
    (telAppend "\x7b\"topic\":\"telemetry\",\"a\":1,\"b\":2\x7d" "eom" 1).2 = none ∧
    (telAppend "\x7b\"topic\":\"telemetry\",\"a\":1,\"b\":2\x7d" "eom" 1).1 =
      "\x7b\"topic\":\"telemetry\",\"a\":1,\"b\":2," := by
  constructor
  · decide
  · decide

/-- C6 amended: on a telemetry buffer that carries its id field in addition
to a 1 and b 2, appending the terminator key produces exactly one flushed
line holding the whole object, resets the buffer to the empty template, and
the next append after closure starts a fresh object. -/
theorem closure_atomicity_amended :
    telAppend "\x7b\"topic\":\"telemetry\",\"id\":3,\"a\":1,\"b\":2\x7d" "eom" 1 =
      (init_telemetry,
       some "\x7b\"topic\":\"telemetry\",\"id\":3,\"a\":1,\"b\":2,\"eom\":1\x7d") ∧
    telAppend init_telemetry "id" 0 = ("\x7b\"topic\":\"telemetry\",\"id\":0\x7d", none) := by
  constructor
  · decide
  · decide

theorem processC2D_rgb1 (e : Env) (g : GW) :
    processC2D e g "1:rgb(255,0,0)" = some g := by
  unfold processC2D
  have e1 : ("1:rgb(255,0,0)" : String).isEmpty = false := by decide
  have e2 : jsSplit "1:rgb(255,0,0)" ':' = ["1", "rgb(255,0,0)"] := by decide
  have e3 : jsSplit "rgb(255,0,0)" '(' = ["rgb", "255,0,0)"] := by decide
  have e4 : jsSplit "255,0,0)" ')' = ["255,0,0", ""] := by decide
  have e5 : jsSplit "255,0,0" ',' = ["255", "0", "0"] := by decide
  simp only [e1, e2, e3, e4, e5]
  by_cases h : jsNumEq (jsParseFloat "1") g.identity = true
  · simp [h, invokeCommands, e3, e4, e5]
  · simp [h]

theorem processC2D_rgb2 (e : Env) (g : GW) :
    processC2D e g "2:rgb(255,0,0)" = some g := by
  unfold processC2D
  have e1 : ("2:rgb(255,0,0)" : String).isEmpty = false := by decide
  have e2 : jsSplit "2:rgb(255,0,0)" ':' = ["2", "rgb(255,0,0)"] := by decide
  have e3 : jsSplit "rgb(255,0,0)" '(' = ["rgb", "255,0,0)"] := by decide
  have e4 : jsSplit "255,0,0)" ')' = ["255,0,0", ""] := by decide
  have e5 : jsSplit "255,0,0" ',' = ["255", "0", "0"] := by decide
  simp only [e1, e2, e3, e4, e5]
  by_cases h : jsNumEq (jsParseFloat "2") g.identity = true
  · simp [h, invokeCommands, e3, e4, e5]
  · simp [h]

/-- C7: for every gateway state and environment, the uplink input line
1,2:rgb(255,0,0) makes the command protocol broadcast exactly the two
strings 1:rgb(255,0,0) and 2:rgb(255,0,0), in that order, and nothing else
(the rgb command leaves all modelled state unchanged whether or not an
address matches the gateway's own identity). -/
theorem addressed_fanout (e : Env) (g : GW) :
    onSerialLine e g "1,2:rgb(255,0,0)" =
      some (g, [Out.radioString "1:rgb(255,0,0)",
                Out.radioString "2:rgb(255,0,0)"]) := by
  have c1 : ("1" : String) ++ ":" ++ "rgb(255,0,0)" = "1:rgb(255,0,0)" := by decide
  have c2 : ("2" : String) ++ ":" ++ "rgb(255,0,0)" = "2:rgb(255,0,0)" := by decide
  have step2 : ∀ g1 : GW, fanOut e "rgb(255,0,0)" g1 ["2"] =
      some (g1, [Out.radioString "2:rgb(255,0,0)"]) := by
    intro g1
    show (match processC2D e g1 ("2" ++ ":" ++ "rgb(255,0,0)") with
          | none => none
          | some g2 =>
              match fanOut e "rgb(255,0,0)" g2 [] with
              | none => none
              | some r => some (r.1,
                  Out.radioString ("2" ++ ":" ++ "rgb(255,0,0)") :: r.2)) = _
    rw [c2, processC2D_rgb2 e g1]
    rfl
  have step1 : fanOut e "rgb(255,0,0)" g ["1", "2"] =
      some (g, [Out.radioString "1:rgb(255,0,0)",
                Out.radioString "2:rgb(255,0,0)"]) := by
    show (match processC2D e g ("1" ++ ":" ++ "rgb(255,0,0)") with
          | none => none
          | some g2 =>
              match fanOut e "rgb(255,0,0)" g2 ["2"] with
              | none => none
              | some r => some (r.1,
                  Out.radioString ("1" ++ ":" ++ "rgb(255,0,0)") :: r.2)) = _
    rw [c1, processC2D_rgb1 e g]
    show (match fanOut e "rgb(255,0,0)" g ["2"] with
          | none => none
          | some r => some (r.1, Out.radioString "1:rgb(255,0,0)" :: r.2)) = _
    rw [step2 g]
  unfold onSerialLine
  have e1 : ("1,2:rgb(255,0,0)" : String).isEmpty = false := by decide
  have e2 : jsSplit "1,2:rgb(255,0,0)" ':' = ["1,2", "rgb(255,0,0)"] := by decide
  have e3 : jsSplit "1,2" ',' = ["1", "2"] := by decide
  simp only [e1, e2, e3]
  norm_num
  exact step1

theorem fanOut_outs (e : Env) (tail : String) :
    ∀ (addrs : List String) (g g1 : GW) (outs : List Out),
      fanOut e tail g addrs = some (g1, outs) →
      outs = addrs.map (fun a => Out.radioString (a ++ ":" ++ tail)) := by
  intro addrs
  induction addrs with
  | nil =>
      intro g g1 outs h
      simp only [fanOut, Option.some.injEq, Prod.mk.injEq] at h
      simp [← h.2]
  | cons a rest ih =>
      intro g g1 outs h
      simp only [fanOut] at h
      cases hp : processC2D e g (a ++ ":" ++ tail) with
      | none => simp [hp] at h
      | some g2 =>
          simp only [hp] at h
          cases hf : fanOut e tail g2 rest with
          | none => simp [hf] at h
          | some r =>
              simp only [hf, Option.some.injEq, Prod.mk.injEq] at h
              rw [← h.2, List.map_cons, ih g2 r.1 r.2 hf]

/-- C8 counterexample: the inbound line a:b:c is non-empty yet nothing is
re-broadcast — a line with two or more colon separators matches neither the
one-part nor the two-part branch of the serial handler and is silently
dropped, refuting the claim that every non-empty line is re-broadcast. -/
theorem double_colon_line_dropped :
    ("a:b:c" : String).isEmpty = false ∧
    onSerialLine e0 gA "a:b:c" = some (gA, []) := by
  constructor
  · decide
  · decide

/-- C8 amended: an empty inbound serial line is ignored (no state change,
nothing broadcast); a non-empty line with no colon separator is re-broadcast
verbatim provided its local execution completes (a payload without an
opening parenthesis panics, and a reset command restarts the device, before
any broadcast); a line with exactly one colon fans out as one re-broadcast
command per listed address, the emissions being exactly the per-address
commands in list order; a non-empty line with two or more colon separators
is dropped with no state change and no broadcast. -/
theorem serial_line_amended (e : Env) (g : GW) (line : String) :
    (line.isEmpty = true → onSerialLine e g line = some (g, [])) ∧
    (line.isEmpty = false → (jsSplit line ':').length = 1 →
       ∀ g1 : GW, processC2D e g line = some g1 →
         onSerialLine e g line = some (g1, [Out.radioString line])) ∧
    (∀ pre post : String, line.isEmpty = false → jsSplit line ':' = [pre, post] →
       onSerialLine e g line = fanOut e post g (jsSplit pre ',')) ∧
    (∀ g1 : GW, ∀ outs : List Out, ∀ pre post : String,
       jsSplit line ':' = [pre, post] →
       fanOut e post g (jsSplit pre ',') = some (g1, outs) →
       outs = (jsSplit pre ',').map (fun a => Out.radioString (a ++ ":" ++ post))) ∧
    (line.isEmpty = false → 3 ≤ (jsSplit line ':').length →
       onSerialLine e g line = some (g, [])) := by
  refine ⟨?_, ?_, ?_, ?_, ?_⟩
  · intro h
    unfold onSerialLine
    rw [h]
    rfl
  · intro h h1 g1 hp
    unfold onSerialLine
    simp [h, h1, hp]
  · intro pre post h h2
    unfold onSerialLine
    rw [h, h2]
    rfl
  · intro g1 outs pre post h2 hf
    exact fanOut_outs e post (jsSplit pre ',') g g1 outs hf
  · intro h h3
    unfold onSerialLine
    have l1 : (jsSplit line ':').length ≠ 1 := by omega
    have l2 : (jsSplit line ':').length ≠ 2 := by omega
    simp [h, l1, l2]

/-- C8 witness: the amended serial-line law applied to an empty line, a
generic parenthesised command, an addressed two-target line, its fan-out
emission list, and a dropped double-colon line. -/
theorem serial_line_amended_witness :
    onSerialLine e0 gA "" = some (gA, []) ∧
    onSerialLine e0 gA "who()" = some (gA, [Out.radioString "who()"]) ∧
    onSerialLine e0 gA "1,2:icon(happy)" =
      fanOut e0 "icon(happy)" gA (jsSplit "1,2" ',') ∧
    [Out.radioString "1:icon(happy)", Out.radioString "2:icon(happy)"] =
      (jsSplit "1,2" ',').map (fun a => Out.radioString (a ++ ":" ++ "icon(happy)")) ∧
    onSerialLine e0 gA "a:b:c" = some (gA, []) :=
  ⟨(serial_line_amended e0 gA "").1 (by decide),
   (serial_line_amended e0 gA "who()").2.1 (by decide) (by decide) gA (by decide),
   (serial_line_amended e0 gA "1,2:icon(happy)").2.2.1 "1,2" "icon(happy)"
     (by decide) (by decide),
   (serial_line_amended e0 gA "1,2:icon(happy)").2.2.2.1 gA
     [Out.radioString "1:icon(happy)", Out.radioString "2:icon(happy)"]
     "1,2" "icon(happy)" (by decide) (by decide),
   (serial_line_amended e0 gA "a:b:c").2.2.2.2 (by decide) (by decide)⟩

theorem jsSet_length {α : Type} (l : List α) (i : Int) (x : α) :
    (jsSet l i x).length = l.length := by
  unfold jsSet
  split
  · rfl
  · exact List.length_set l i.toNat x

theorem jsSet_get_ne {α : Type} {l : List α} {i : Int} {x : α} {j : Nat}
    (hj : j ≠ i.toNat) : (jsSet l i x)[j]? = l[j]? := by
  unfold jsSet
  split
  · rfl
  · exact List.getElem?_set_ne (fun hc => hj hc.symm)

theorem sendTel_frame {s : GW} {sn : Int} {k : String} {v : Int}
    {s1 : GW} {out : List Out}
    (h : gatewaySendTelemetry s sn k v = some (s1, out)) :
    s1.registrar = s.registrar ∧ s1.prop = s.prop ∧ s1.logbuf = s.logbuf ∧
    s1.packetLoss = s.packetLoss ∧ s1.inflight = s.inflight ∧
    s1.identity = s.identity ∧ s1.timerRadio = s.timerRadio ∧
    s1.timerGateway = s.timerGateway ∧
    s1.cursor = some (jsIndexOf s.registrar sn) ∧
    s1.telem.length = s.telem.length ∧
    (∀ j : Nat, j ≠ (jsIndexOf s.registrar sn).toNat →
       s1.telem[j]? = s.telem[j]?) := by
  unfold gatewaySendTelemetry at h
  cases hJ : jsGetOpt s.telem (some (jsIndexOf s.registrar sn)) with
  | none => simp [hJ] at h
  | some J =>
      simp only [hJ, Option.some.injEq, Prod.mk.injEq] at h
      rw [← h.1]
      refine ⟨rfl, rfl, rfl, rfl, rfl, rfl, rfl, rfl, rfl, jsSet_length .., ?_⟩
      intro j hj
      exact jsSet_get_ne hj

theorem sendProp_frame {s : GW} {sn : Int} {k : String} {v : Int}
    {s1 : GW} {out : List Out}
    (h : gatewaySendProperty s sn k v = some (s1, out)) :
    s1.registrar = s.registrar ∧ s1.telem = s.telem ∧ s1.logbuf = s.logbuf ∧
    s1.packetLoss = s.packetLoss ∧ s1.inflight = s.inflight ∧
    s1.identity = s.identity ∧ s1.timerRadio = s.timerRadio ∧
    s1.timerGateway = s.timerGateway ∧
    s1.cursor = some (jsIndexOf s.registrar sn) ∧
    s1.prop.length = s.prop.length ∧
    (∀ j : Nat, j ≠ (jsIndexOf s.registrar sn).toNat →
       s1.prop[j]? = s.prop[j]?) := by
  unfold gatewaySendProperty at h
  cases hJ : jsGetStr s.prop (some (jsIndexOf s.registrar sn)) with
  | none => simp [hJ] at h
  | some J =>
      simp only [hJ, Option.some.injEq, Prod.mk.injEq] at h
      rw [← h.1]
      refine ⟨rfl, rfl, rfl, rfl, rfl, rfl, rfl, rfl, rfl, jsSet_length .., ?_⟩
      intro j hj
      exact jsSet_get_ne hj

/-- C1 counterexample: with device index 1 polled and a request in flight,
a stray temp reading from the registered but unpolled sender 300 (index 2)
moves the poll cursor to index 2 — the emission index and the cursor are
the same variable — and a stray eom from that same unpolled sender clears
the in-flight flag even though it does not match the polled identity. -/
theorem stray_event_moves_cursor :
    gA.cursor = some 1 ∧ gA.inflight = true ∧
    (onReceivedValue gA "temp" 21 300 0 0 10).map (fun r => r.1.cursor) =
      some (some 2) ∧
    (onReceivedValue gA "eom" 1 300 0 0 10).map (fun r => r.1.inflight) =
      some false := by
  refine ⟨?_, ?_, ?_, ?_⟩ <;> decide

/-- C1 amended: a received radio value event that is not a registration,
deactivation or terminator event and completes normally updates only the
sending device's buffers — all other registry slots, the loss counter, the
in-flight flag, the identity and the gateway timer are untouched — but it
does re-arm the radio deadline timer and it sets the poll cursor to the
sender's registry index (the cursor doubles as the emission index), whether
or not the sender is the currently polled device; a terminator event clears
the in-flight flag regardless of its sender. -/
theorem stray_event_frame (s : GW) (name : String)
    (value sn rxTime rxSignal now : Int) (s1 : GW) (out : List Out)
    (h1 : name ≠ "register") (h2 : name ≠ "del") (h3 : name ≠ "eom")
    (h : onReceivedValue s name value sn rxTime rxSignal now = some (s1, out)) :
    s1.registrar = s.registrar ∧ s1.packetLoss = s.packetLoss ∧
    s1.inflight = s.inflight ∧ s1.identity = s.identity ∧
    s1.timerGateway = s.timerGateway ∧ s1.logbuf = s.logbuf ∧
    s1.timerRadio = setTimerRadioRequest now none ∧
    (name.take 2 ≠ "d:" → s1.cursor = some (jsIndexOf s.registrar sn)) ∧
    (∀ j : Nat, j ≠ (jsIndexOf s.registrar sn).toNat →
       s1.telem[j]? = s.telem[j]? ∧ s1.prop[j]? = s.prop[j]?) := by
  unfold onReceivedValue at h
  simp only [h1, h2, h3, if_false, ite_false] at h
  cases hkv : telKV name value sn rxTime rxSignal s.packetLoss with
  | some kv =>
      simp only [hkv] at h
      obtain ⟨a1, a2, a3, a4, a5, a6, a7, a8, a9, a10, a11⟩ := sendTel_frame h
      refine ⟨a1, a4, a5, a6, a8, a3, a7, fun _ => a9, fun j hj => ⟨a11 j hj, ?_⟩⟩
      rw [a2]
  | none =>
      simp only [hkv] at h
      by_cases hd : name.take 2 = "d:"
      · rw [if_pos hd] at h
        simp only [Option.some.injEq, Prod.mk.injEq] at h
        obtain ⟨hs, ho⟩ := h
        rw [← hs]
        exact ⟨rfl, rfl, rfl, rfl, rfl, rfl, rfl,
               fun hc => absurd hd hc, fun j hj => ⟨rfl, rfl⟩⟩
      · rw [if_neg hd] at h
        obtain ⟨b1, b2, b3, b4, b5, b6, b7, b8, b9, b10, b11⟩ := sendProp_frame h
        refine ⟨b1, b4, b5, b6, b8, b3, b7, fun _ => b9, fun j hj => ⟨?_, b11 j hj⟩⟩
        rw [b2]

theorem idxOfAux_notMem {l : List Int} {x : Int} (h : x ∉ l) :
    idxOfAux x l = none := by
  induction l with
  | nil => rfl
  | cons a t ih =>
      have hax : ¬(a = x) := fun hc => h (hc ▸ List.mem_cons_self a t)
      simp [idxOfAux, hax, ih (fun hm => h (List.mem_cons_of_mem a hm))]

theorem jsIndexOf_notMem {l : List Int} {x : Int} (h : x ∉ l) :
    jsIndexOf l x = -1 := by
  unfold jsIndexOf
  rw [idxOfAux_notMem h]

theorem idxOfAux_append_self {l : List Int} {x : Int} (h : x ∉ l) :
    idxOfAux x (l ++ [x]) = some l.length := by
  induction l with
  | nil => simp [idxOfAux]
  | cons a t ih =>
      have hax : ¬(a = x) := fun hc => h (hc ▸ List.mem_cons_self a t)
      have ih2 := ih (fun hm => h (List.mem_cons_of_mem a hm))
      simp [idxOfAux, hax, ih2]

theorem jsIndexOf_append_self {l : List Int} {x : Int} (h : x ∉ l) :
    jsIndexOf (l ++ [x]) x = (l.length : Int) := by
  unfold jsIndexOf
  rw [idxOfAux_append_self h]

theorem idxOfAux_mem_isSome {x : Int} : ∀ {l : List Int}, x ∈ l →
    (idxOfAux x l).isSome = true := by
  intro l h
  induction l with
  | nil => exact absurd h (List.not_mem_nil x)
  | cons a t ih =>
      by_cases hax : a = x
      · simp [idxOfAux, hax]
      · have hm : x ∈ t := by
          rcases List.mem_cons.mp h with hc | hm
          · exact absurd hc.symm hax
          · exact hm
        have hs := ih hm
        cases ht : idxOfAux x t with
        | none => rw [ht] at hs; simp at hs
        | some j => simp [idxOfAux, hax, ht]

theorem jsIndexOf_nonneg {l : List Int} {x : Int} (h : x ∈ l) :
    0 ≤ jsIndexOf l x := by
  unfold jsIndexOf
  cases hi : idxOfAux x l with
  | some i => exact Int.ofNat_nonneg i
  | none =>
      have hs := idxOfAux_mem_isSome h
      rw [hi] at hs
      simp at hs

theorem addMicrobit_fresh (s : GW) (sn now : Int) (h : sn ∉ s.registrar) :
    addMicrobit s sn now =
      ({ s with registrar := s.registrar ++ [sn],
                telem := s.telem ++ [some init_telemetry],
                prop := s.prop ++ [init_property],
                logbuf := s.logbuf ++ [init_log],
                timerRadio := setTimerRadioRequest now (some 1000),
                timerGateway := setTimerGatewayRequest now (some 1000) },
       [Out.radioString ("setId(" ++ toString (jsIndexOf (s.registrar ++ [sn]) sn)
          ++ "," ++ toString sn ++ ")")]) := by
  have h1 : jsIndexOf s.registrar sn = -1 := jsIndexOf_notMem h
  unfold addMicrobit
  rw [h1]
  norm_num

theorem addMicrobit_existing (s : GW) (sn now : Int) (hm : sn ∈ s.registrar) :
    addMicrobit s sn now = (s, []) := by
  have hnn : 0 ≤ jsIndexOf s.registrar sn := jsIndexOf_nonneg hm
  unfold addMicrobit
  rw [if_neg (by omega)]

/-- C2: registering a fresh identity assigns it the next id (its position,
the previous registry length), broadcasts exactly one setId assignment
notification; registering the same identity again returns the same id,
changes nothing at all and broadcasts nothing, so exactly one notification
is emitted in total. -/
theorem register_idempotent (s : GW) (sn now now2 : Int) (h : sn ∉ s.registrar) :
    jsIndexOf (addMicrobit s sn now).1.registrar sn = (s.registrar.length : Int) ∧
    addMicrobit (addMicrobit s sn now).1 sn now2 = ((addMicrobit s sn now).1, []) ∧
    (addMicrobit s sn now).2 =
      [Out.radioString ("setId(" ++ toString ((s.registrar.length : Int)) ++ ","
         ++ toString sn ++ ")")] ∧
    (addMicrobit s sn now).1.registrar = s.registrar ++ [sn] := by
  have h2 : jsIndexOf (s.registrar ++ [sn]) sn = (s.registrar.length : Int) :=
    jsIndexOf_append_self h
  rw [addMicrobit_fresh s sn now h]
  refine ⟨h2, ?_, ?_, rfl⟩
  · exact addMicrobit_existing _ sn now2
      (List.mem_append_right _ (List.mem_singleton.mpr rfl))
  · rw [h2]

/-- C2 witness: registering the fresh serial 400 in the three-device state
gA assigns id 3, emits one setId broadcast, and a second registration of
400 is a complete no-op. -/
theorem register_idempotent_witness :
    jsIndexOf (addMicrobit gA 400 10).1.registrar 400 = (gA.registrar.length : Int) ∧
    addMicrobit (addMicrobit gA 400 10).1 400 20 = ((addMicrobit gA 400 10).1, []) ∧
    (addMicrobit gA 400 10).2 =
      [Out.radioString ("setId(" ++ toString ((gA.registrar.length : Int)) ++ ","
         ++ toString (400 : Int) ++ ")")] ∧
    (addMicrobit gA 400 10).1.registrar = gA.registrar ++ [400] :=
  register_idempotent gA 400 10 20 (by decide)

theorem addMicrobit_aligned {s : GW} (h : buffersAligned s) (sn now : Int) :
    buffersAligned (addMicrobit s sn now).1 := by
  obtain ⟨ht, hp, hl⟩ := h
  unfold addMicrobit
  by_cases hc : jsIndexOf s.registrar sn < 0
  · rw [if_pos hc]
    exact ⟨by simp [ht], by simp [hp], by simp [hl]⟩
  · rw [if_neg hc]
    exact ⟨ht, hp, hl⟩

theorem delMicrobit_aligned {s : GW} (h : buffersAligned s) (sn : Int) :
    buffersAligned (delMicrobit s sn).1 := by
  obtain ⟨ht, hp, hl⟩ := h
  unfold delMicrobit
  by_cases hc : jsIndexOf s.registrar sn ≥ 0
  · rw [if_pos hc]
    cases hJ : jsGetOpt s.telem (some (jsIndexOf s.registrar sn)) with
    | none => exact ⟨ht, hp, hl⟩
    | some J => exact ⟨by rw [jsSet_length]; exact ht, hp, hl⟩
  · rw [if_neg hc]
    exact ⟨ht, hp, hl⟩

theorem sendTel_aligned {s s1 : GW} {sn : Int} {k : String} {v : Int}
    {out : List Out} (h : gatewaySendTelemetry s sn k v = some (s1, out))
    (ha : buffersAligned s) : buffersAligned s1 := by
  obtain ⟨a1, a2, a3, _, _, _, _, _, _, a10, _⟩ := sendTel_frame h
  exact ⟨by rw [a10, a1]; exact ha.1, by rw [a2, a1]; exact ha.2.1,
         by rw [a3, a1]; exact ha.2.2⟩

theorem sendProp_aligned {s s1 : GW} {sn : Int} {k : String} {v : Int}
    {out : List Out} (h : gatewaySendProperty s sn k v = some (s1, out))
    (ha : buffersAligned s) : buffersAligned s1 := by
  obtain ⟨a1, a2, a3, _, _, _, _, _, _, a10, _⟩ := sendProp_frame h
  exact ⟨by rw [a2, a1]; exact ha.1, by rw [a10, a1]; exact ha.2.1,
         by rw [a3, a1]; exact ha.2.2⟩

/-- C9: the three registry-mutating operations — registration,
deactivation, and the radio receive handler (when it completes normally) —
preserve the equal length of device_registrar, device_telemetry,
device_property and device_log, so every registered serial number keeps
buffers of all three stream kinds at its assigned index. -/
theorem registry_arrays_aligned (s : GW) (h : buffersAligned s) :
    (∀ sn now : Int, buffersAligned (addMicrobit s sn now).1) ∧
    (∀ sn : Int, buffersAligned (delMicrobit s sn).1) ∧
    (∀ (name : String) (value sn rxTime rxSignal now : Int) (s1 : GW)
       (out : List Out),
       onReceivedValue s name value sn rxTime rxSignal now = some (s1, out) →
       buffersAligned s1) := by
  refine ⟨fun sn now => addMicrobit_aligned h sn now,
          fun sn => delMicrobit_aligned h sn, ?_⟩
  intro name value sn rxTime rxSignal now s1 out hrecv
  unfold onReceivedValue at hrecv
  have h0 : buffersAligned { s with timerRadio := setTimerRadioRequest now none } := h
  by_cases h1 : name = "register"
  · simp only [h1, if_true, ite_true, Option.some.injEq] at hrecv
    have hfst : (addMicrobit { s with
        timerRadio := setTimerRadioRequest now none } sn now).1 = s1 := by
      rw [hrecv]
    rw [← hfst]
    exact addMicrobit_aligned h0 sn now
  · rw [if_neg h1] at hrecv
    by_cases h2 : name = "del"
    · simp only [h2, if_true, ite_true, Option.some.injEq] at hrecv
      have hfst : (delMicrobit { s with
          timerRadio := setTimerRadioRequest now none } sn).1 = s1 := by
        rw [hrecv]
      rw [← hfst]
      exact delMicrobit_aligned h0 sn
    · rw [if_neg h2] at hrecv
      by_cases h3 : name = "eom"
      · simp only [h3, if_true, ite_true] at hrecv
        cases hg : gatewaySendTelemetry
            { s with timerRadio := setTimerRadioRequest now none } sn "eom" value with
        | none => rw [hg] at hrecv; exact absurd hrecv (by simp)
        | some r =>
            rw [hg] at hrecv
            simp only [Option.map_some', Option.some.injEq, Prod.mk.injEq] at hrecv
            obtain ⟨hs1, _⟩ := hrecv
            rw [← hs1]
            exact @sendTel_aligned _ r.1 sn "eom" value r.2 hg h0
      · rw [if_neg h3] at hrecv
        cases hkv : telKV name value sn rxTime rxSignal s.packetLoss with
        | some kv =>
            simp only [hkv] at hrecv
            exact sendTel_aligned hrecv h0
        | none =>
            simp only [hkv] at hrecv
            by_cases hd : name.take 2 = "d:"
            · rw [if_pos hd] at hrecv
              simp only [Option.some.injEq, Prod.mk.injEq] at hrecv
              rw [← hrecv.1]
              exact h0
            · rw [if_neg hd] at hrecv
              exact sendProp_aligned hrecv h0

/-- C9 witness: alignment is preserved on the concrete three-device state
gA by a fresh registration, a deactivation, and a received telemetry
value. -/
theorem registry_arrays_aligned_witness :
    buffersAligned (addMicrobit gA 400 10).1 ∧
    buffersAligned (delMicrobit gA 300).1 ∧
    buffersAligned gA1 :=
  ⟨(registry_arrays_aligned gA ⟨rfl, rfl, rfl⟩).1 400 10,
   (registry_arrays_aligned gA ⟨rfl, rfl, rfl⟩).2.1 300,
   (registry_arrays_aligned gA ⟨rfl, rfl, rfl⟩).2.2 "temp" 21 300 0 0 10 gA1 []
     (by decide)⟩

theorem request_next_token (e : Env) (s : GW) (c1 : Int) (J : String)
    (hmod : jsModCursor s.cursor s.registrar.length = some c1)
    (hslot : jsGetOpt s.telem (some c1) = some J) (hpos : 0 < c1) :
    request_next_mb e s =
      some ({ s with cursor := some c1,
                     timerRadio := setTimerRadioRequest e.now none,
                     inflight := true },
            [Out.radioValue "token" (jsGetInt s.registrar c1)]) := by
  unfold request_next_mb
  rw [hmod]
  dsimp only
  rw [hslot]
  have hz : ¬(c1 = 0) := by omega
  rw [if_neg hz, if_pos hpos]

theorem request_next_null (e : Env) (s : GW)
    (hnull : jsGetOpt s.telem (jsModCursor s.cursor s.registrar.length) = none) :
    request_next_mb e s =
      some ({ s with cursor := jsModCursor s.cursor s.registrar.length }, []) := by
  unfold request_next_mb
  dsimp only
  rw [hnull]

theorem sendTelList_frame :
    ∀ (kvs : List (String × Int)) (s t : GW) (sn : Int) (out : List Out),
      sendTelList s sn kvs = some (t, out) →
      t.packetLoss = s.packetLoss ∧ t.inflight = s.inflight := by
  intro kvs
  induction kvs with
  | nil =>
      intro s t sn out h
      simp only [sendTelList, Option.some.injEq, Prod.mk.injEq] at h
      rw [← h.1]
      exact ⟨rfl, rfl⟩
  | cons kv rest ih =>
      intro s t sn out h
      simp only [sendTelList] at h
      cases hg : gatewaySendTelemetry s sn kv.1 kv.2 with
      | none => simp [hg] at h
      | some r =>
          simp only [hg] at h
          cases hl : sendTelList r.1 sn rest with
          | none => simp [hl] at h
          | some r2 =>
              simp only [hl, Option.some.injEq, Prod.mk.injEq] at h
              obtain ⟨_, _, _, f4, f5, _⟩ := sendTel_frame hg
              have h2 := ih r.1 r2.1 sn r2.2 hl
              rw [← h.1]
              exact ⟨h2.1.trans f4, h2.2.trans f5⟩

theorem sendPropList_frame :
    ∀ (kvs : List (String × Int)) (s t : GW) (sn : Int) (out : List Out),
      sendPropList s sn kvs = some (t, out) →
      t.packetLoss = s.packetLoss ∧ t.inflight = s.inflight := by
  intro kvs
  induction kvs with
  | nil =>
      intro s t sn out h
      simp only [sendPropList, Option.some.injEq, Prod.mk.injEq] at h
      rw [← h.1]
      exact ⟨rfl, rfl⟩
  | cons kv rest ih =>
      intro s t sn out h
      simp only [sendPropList] at h
      cases hg : gatewaySendProperty s sn kv.1 kv.2 with
      | none => simp [hg] at h
      | some r =>
          simp only [hg] at h
          cases hl : sendPropList r.1 sn rest with
          | none => simp [hl] at h
          | some r2 =>
              simp only [hl, Option.some.injEq, Prod.mk.injEq] at h
              obtain ⟨_, _, _, f4, f5, _⟩ := sendProp_frame hg
              have h2 := ih r.1 r2.1 sn r2.2 hl
              rw [← h.1]
              exact ⟨h2.1.trans f4, h2.2.trans f5⟩

theorem submitTel_frame {e : Env} {s t : GW} {out : List Out}
    (h : gatewaySubmitTelemetry e s = some (t, out)) :
    t.packetLoss = s.packetLoss ∧ t.inflight = s.inflight := by
  unfold gatewaySubmitTelemetry at h
  by_cases hb : e.doTelemetry = true
  · rw [if_pos hb] at h
    exact sendTelList_frame _ s t e.snGW out h
  · rw [if_neg hb] at h
    simp only [Option.some.injEq, Prod.mk.injEq] at h
    rw [← h.1]
    exact ⟨rfl, rfl⟩

theorem submitProp_frame {e : Env} {s t : GW} {out : List Out}
    (h : gatewaySubmitProperty e s = some (t, out)) :
    t.packetLoss = s.packetLoss ∧ t.inflight = s.inflight := by
  unfold gatewaySubmitProperty at h
  by_cases hb : (e.doProperty && decide (0 < e.propString.length)) = true
  · rw [if_pos hb] at h
    exact sendPropList_frame _ s t e.snGW out h
  · rw [if_neg hb] at h
    simp only [Option.some.injEq, Prod.mk.injEq] at h
    rw [← h.1]
    exact ⟨rfl, rfl⟩

theorem rnm_frame {e : Env} {s t : GW} {out : List Out}
    (h : request_next_mb e s = some (t, out)) :
    t.packetLoss = s.packetLoss ∧ (s.inflight = true → t.inflight = true) := by
  unfold request_next_mb at h
  cases hslot : jsGetOpt s.telem (jsModCursor s.cursor s.registrar.length) with
  | none =>
      dsimp only at h
      rw [hslot] at h
      simp only [Option.some.injEq, Prod.mk.injEq] at h
      rw [← h.1]
      exact ⟨rfl, fun hin => hin⟩
  | some J =>
      dsimp only at h
      rw [hslot] at h
      cases hmod : jsModCursor s.cursor s.registrar.length with
      | none =>
          rw [hmod] at h
          dsimp only at h
          simp only [Option.some.injEq, Prod.mk.injEq] at h
          rw [← h.1]
          exact ⟨rfl, fun hin => hin⟩
      | some c =>
          rw [hmod] at h
          dsimp only at h
          by_cases hz : c = 0
          · rw [if_pos hz] at h
            cases hsub : gatewaySubmitTelemetry e
                { s with cursor := some c,
                         timerGateway := setTimerGatewayRequest e.now none } with
            | none => simp [hsub] at h
            | some r =>
                simp only [hsub] at h
                cases hsub2 : gatewaySubmitProperty e r.1 with
                | none => simp [hsub2] at h
                | some r2 =>
                    simp only [hsub2, Option.some.injEq, Prod.mk.injEq] at h
                    have f1 := submitTel_frame hsub
                    have f2 := submitProp_frame hsub2
                    rw [← h.1]
                    exact ⟨f2.1.trans f1.1,
                           fun hin => f2.2.trans (f1.2.trans hin)⟩
          · rw [if_neg hz] at h
            by_cases hpos : c > 0
            · rw [if_pos hpos] at h
              simp only [Option.some.injEq, Prod.mk.injEq] at h
              rw [← h.1]
              exact ⟨rfl, fun _ => rfl⟩
            · rw [if_neg hpos] at h
              simp only [Option.some.injEq, Prod.mk.injEq] at h
              rw [← h.1]
              exact ⟨rfl, fun hin => hin⟩

theorem addMicrobit_loss (s : GW) (sn now : Int) :
    (addMicrobit s sn now).1.packetLoss = s.packetLoss := by
  unfold addMicrobit
  dsimp only
  split
  · rfl
  · rfl

theorem delMicrobit_loss (s : GW) (sn : Int) :
    (delMicrobit s sn).1.packetLoss = s.packetLoss := by
  unfold delMicrobit
  dsimp only
  split
  · split <;> rfl
  · rfl

theorem recv_frame {s t : GW} {name : String} {value sn rxTime rxSignal now : Int}
    {out : List Out}
    (h : onReceivedValue s name value sn rxTime rxSignal now = some (t, out)) :
    t.packetLoss = s.packetLoss := by
  unfold onReceivedValue at h
  by_cases h1 : name = "register"
  · simp only [h1, if_true, ite_true, Option.some.injEq] at h
    have hf : (addMicrobit { s with
        timerRadio := setTimerRadioRequest now none } sn now).1 = t := by rw [h]
    rw [← hf, addMicrobit_loss]
  · rw [if_neg h1] at h
    by_cases h2 : name = "del"
    · simp only [h2, if_true, ite_true, Option.some.injEq] at h
      have hf : (delMicrobit { s with
          timerRadio := setTimerRadioRequest now none } sn).1 = t := by rw [h]
      rw [← hf, delMicrobit_loss]
    · rw [if_neg h2] at h
      by_cases h3 : name = "eom"
      · simp only [h3, if_true, ite_true] at h
        cases hg : gatewaySendTelemetry
            { s with timerRadio := setTimerRadioRequest now none } sn "eom" value with
        | none => rw [hg] at h; exact absurd h (by simp)
        | some r =>
            rw [hg] at h
            simp only [Option.map_some', Option.some.injEq, Prod.mk.injEq] at h
            obtain ⟨_, _, _, f4, _⟩ := sendTel_frame hg
            rw [← h.1]
            exact f4
      · rw [if_neg h3] at h
        cases hkv : telKV name value sn rxTime rxSignal s.packetLoss with
        | some kv =>
            simp only [hkv] at h
            obtain ⟨_, _, _, f4, _⟩ := sendTel_frame h
            exact f4
        | none =>
            simp only [hkv] at h
            by_cases hd : name.take 2 = "d:"
            · rw [if_pos hd] at h
              simp only [Option.some.injEq, Prod.mk.injEq] at h
              rw [← h.1]
            · rw [if_neg hd] at h
              obtain ⟨_, _, _, f4, _⟩ := sendProp_frame h
              exact f4

theorem invoke_loss {e : Env} {g g1 : GW} {cmd : String} {p1 p2 p3 : Option String}
    (h : invokeCommands e g cmd p1 p2 p3 = some g1) :
    g1.packetLoss = g.packetLoss := by
  unfold invokeCommands at h
  by_cases hr : cmd = "reset"
  · rw [if_pos hr] at h
    exact absurd h (by simp)
  · rw [if_neg hr] at h
    by_cases hs : cmd = "setId"
    · rw [if_pos hs] at h
      cases hn : jsNumEq (p2.bind jsParseFloat) (some e.snGW) with
      | true =>
          rw [hn] at h
          dsimp only at h
          simp only [Option.some.injEq] at h
          rw [← h]
      | false =>
          rw [hn] at h
          dsimp only at h
          simp only [Option.some.injEq] at h
          rw [← h]
    · rw [if_neg hs] at h
      simp only [Option.some.injEq] at h
      rw [← h]

theorem processC2D_loss {e : Env} {g g1 : GW} {line : String}
    (h : processC2D e g line = some g1) : g1.packetLoss = g.packetLoss := by
  unfold processC2D at h
  dsimp only at h
  by_cases h0 : line.isEmpty = true
  · rw [if_pos h0] at h
    simp only [Option.some.injEq] at h
    rw [← h]
  · rw [if_neg h0] at h
    by_cases hl1 : (jsSplit line ':').length = 1
    · rw [if_pos hl1] at h
      cases hu : (jsSplit line '(')[1]? with
      | none => rw [hu] at h; exact absurd h (by simp)
      | some u =>
          rw [hu] at h
          dsimp only at h
          exact invoke_loss h
    · rw [if_neg hl1] at h
      by_cases hl2 : (jsSplit line ':').length = 2
      · rw [if_pos hl2] at h
        by_cases hid : jsNumEq (jsParseFloat ((jsSplit line ':').getD 0 ""))
            g.identity = true
        · rw [if_pos hid] at h
          cases hu : (jsSplit ((jsSplit line ':').getD 1 "") '(')[1]? with
          | none => rw [hu] at h; exact absurd h (by simp)
          | some u =>
              rw [hu] at h
              dsimp only at h
              exact invoke_loss h
        · rw [if_neg hid] at h
          simp only [Option.some.injEq] at h
          rw [← h]
      · rw [if_neg hl2] at h
        simp only [Option.some.injEq] at h
        rw [← h]

theorem fanOut_loss {e : Env} {tail : String} :
    ∀ (addrs : List String) (g g1 : GW) (outs : List Out),
      fanOut e tail g addrs = some (g1, outs) → g1.packetLoss = g.packetLoss := by
  intro addrs
  induction addrs with
  | nil =>
      intro g g1 outs h
      simp only [fanOut, Option.some.injEq, Prod.mk.injEq] at h
      rw [← h.1]
  | cons a rest ih =>
      intro g g1 outs h
      simp only [fanOut] at h
      cases hp : processC2D e g (a ++ ":" ++ tail) with
      | none => simp [hp] at h
      | some g2 =>
          simp only [hp] at h
          cases hf : fanOut e tail g2 rest with
          | none => simp [hf] at h
          | some r =>
              simp only [hf, Option.some.injEq, Prod.mk.injEq] at h
              rw [← h.1]
              exact (ih g2 r.1 r.2 hf).trans (processC2D_loss hp)

theorem serial_loss {e : Env} {g g1 : GW} {line : String} {outs : List Out}
    (h : onSerialLine e g line = some (g1, outs)) :
    g1.packetLoss = g.packetLoss := by
  unfold onSerialLine at h
  dsimp only at h
  by_cases h0 : line.isEmpty = true
  · rw [if_pos h0] at h
    simp only [Option.some.injEq, Prod.mk.injEq] at h
    rw [← h.1]
  · rw [if_neg h0] at h
    by_cases hl1 : (jsSplit line ':').length = 1
    · rw [if_pos hl1] at h
      cases hp : processC2D e g line with
      | none => rw [hp] at h; exact absurd h (by simp)
      | some g2 =>
          rw [hp] at h
          dsimp only at h
          simp only [Option.some.injEq, Prod.mk.injEq] at h
          rw [← h.1]
          exact processC2D_loss hp
    · rw [if_neg hl1] at h
      by_cases hl2 : (jsSplit line ':').length = 2
      · rw [if_pos hl2] at h
        exact fanOut_loss _ g g1 outs h
      · rw [if_neg hl2] at h
        simp only [Option.some.injEq, Prod.mk.injEq] at h
        rw [← h.1]

theorem orchestrator_frame {e : Env} {s t : GW} {out : List Out}
    (h : runGatewayOrchestrator e s = some (t, out)) :
    s.packetLoss ≤ t.packetLoss := by
  unfold runGatewayOrchestrator at h
  by_cases hin : s.inflight = true
  · rw [if_pos hin] at h
    by_cases ht : e.now > s.timerRadio
    · rw [if_pos ht] at h
      cases hr : request_next_mb e { s with packetLoss := s.packetLoss + 1 } with
      | none => rw [hr] at h; exact absurd h (by simp)
      | some r1 =>
          rw [hr] at h
          dsimp only at h
          have f1 : r1.1.packetLoss = s.packetLoss + 1 := (rnm_frame hr).1
          by_cases h2 : r1.1.inflight = false
          · rw [if_pos h2] at h
            cases hr2 : request_next_mb e r1.1 with
            | none => rw [hr2] at h; exact absurd h (by simp)
            | some r2 =>
                rw [hr2] at h
                dsimp only at h
                simp only [Option.some.injEq, Prod.mk.injEq] at h
                have f2 : r2.1.packetLoss = r1.1.packetLoss := (rnm_frame hr2).1
                rw [← h.1]
                omega
          · rw [if_neg h2] at h
            simp only [Option.some.injEq] at h
            have f3 : t.packetLoss = s.packetLoss + 1 := by
              rw [h] at f1
              exact f1
            omega
    · rw [if_neg ht] at h
      dsimp only at h
      have hf : ¬(s.inflight = false) := by rw [hin]; simp
      rw [if_neg hf] at h
      simp only [Option.some.injEq, Prod.mk.injEq] at h
      rw [← h.1]
  · rw [if_neg hin] at h
    dsimp only at h
    have hin2 : s.inflight = false := by
      revert hin
      cases s.inflight <;> simp
    rw [if_pos hin2] at h
    cases hr : request_next_mb e s with
    | none => rw [hr] at h; exact absurd h (by simp)
    | some r =>
        rw [hr] at h
        dsimp only at h
        simp only [Option.some.injEq, Prod.mk.injEq] at h
        have f1 : r.1.packetLoss = s.packetLoss := (rnm_frame hr).1
        rw [← h.1]
        omega

/-- C5: if a remote request is in flight and its deadline has elapsed at a
tick, that tick increments the loss counter by exactly one, advances the
poll cursor past the unresponsive device (the new cursor differs from the
old), and issues the next request — here the token to the next active
remote device — without re-polling the same device in that cycle; and the
loss counter never decreases and is never reset by any operation: ticks
only increase it and the receive handler, the serial handler, registration
and deactivation all leave it unchanged. -/
theorem loss_accounting (e : Env) (s : GW) (c c1 : Int) (J : String)
    (hin : s.inflight = true) (ht : e.now > s.timerRadio)
    (hc : s.cursor = some c)
    (hmod : jsModCursor s.cursor s.registrar.length = some c1)
    (hslot : jsGetOpt s.telem (some c1) = some J)
    (hpos : 0 < c1) (hc0 : 0 ≤ c)
    (hlt : c < (s.registrar.length : Int)) (hlen : 2 ≤ s.registrar.length) :
    runGatewayOrchestrator e s =
      some ({ s with packetLoss := s.packetLoss + 1, cursor := some c1,
                     timerRadio := setTimerRadioRequest e.now none,
                     inflight := true },
            [Out.radioValue "token" (jsGetInt s.registrar c1)]) ∧
    c1 ≠ c ∧
    (∀ (e2 : Env) (s2 t : GW) (out : List Out),
       runGatewayOrchestrator e2 s2 = some (t, out) →
       s2.packetLoss ≤ t.packetLoss) ∧
    (∀ (s2 t : GW) (name : String) (value sn rxTime rxSignal now : Int)
       (out : List Out),
       onReceivedValue s2 name value sn rxTime rxSignal now = some (t, out) →
       t.packetLoss = s2.packetLoss) ∧
    (∀ (e2 : Env) (s2 t : GW) (line : String) (out : List Out),
       onSerialLine e2 s2 line = some (t, out) → t.packetLoss = s2.packetLoss) ∧
    (∀ (s2 : GW) (sn now : Int),
       (addMicrobit s2 sn now).1.packetLoss = s2.packetLoss) ∧
    (∀ (s2 : GW) (sn : Int),
       (delMicrobit s2 sn).1.packetLoss = s2.packetLoss) := by
  refine ⟨?_, ?_, fun e2 s2 t out h => orchestrator_frame h,
          fun s2 t name value sn rxTime rxSignal now out h => recv_frame h,
          fun e2 s2 t line out h => serial_loss h,
          fun s2 sn now => addMicrobit_loss s2 sn now,
          fun s2 sn => delMicrobit_loss s2 sn⟩
  · unfold runGatewayOrchestrator
    rw [if_pos hin, if_pos ht]
    rw [request_next_token e { s with packetLoss := s.packetLoss + 1 } c1 J
          hmod hslot hpos]
    dsimp only
    rw [if_neg (by simp : ¬(true = false))]
  · have hlen0 : ¬(s.registrar.length = 0) := by omega
    have hc1 : c1 = (c + 1).tmod (s.registrar.length : Int) := by
      unfold jsModCursor at hmod
      rw [hc] at hmod
      dsimp only at hmod
      rw [if_neg hlen0] at hmod
      exact (Option.some.inj hmod).symm
    have htm : (c + 1).tmod (s.registrar.length : Int)
        = (c + 1) % (s.registrar.length : Int) :=
      Int.tmod_eq_emod (by omega) (by omega)
    rcases lt_or_eq_of_le (by omega : c + 1 ≤ (s.registrar.length : Int)) with
      hlt2 | heq
    · rw [hc1, htm, Int.emod_eq_of_lt (by omega) hlt2]
      omega
    · rw [hc1, htm, heq, Int.emod_self]
      intro hcon
      omega

/-- C5 witness: the loss-accounting law at the concrete state gA (cursor on
device 1, request in flight, deadline 0 already passed at clock 10): the
tick counts one loss, moves the cursor to index 2 and tokens serial 300. -/
theorem loss_accounting_witness :
    runGatewayOrchestrator e0 gA =
      some ({ gA with packetLoss := gA.packetLoss + 1, cursor := some 2,
                      timerRadio := setTimerRadioRequest e0.now none,
                      inflight := true },
            [Out.radioValue "token" (jsGetInt gA.registrar 2)]) ∧
    (2 : Int) ≠ 1 :=
  ⟨(loss_accounting e0 gA 1 2 init_telemetry rfl (by decide) rfl (by decide)
      (by decide) (by decide) (by decide) (by decide) (by decide)).1,
   (loss_accounting e0 gA 1 2 init_telemetry rfl (by decide) rfl (by decide)
      (by decide) (by decide) (by decide) (by decide) (by decide)).2.1⟩

/-- C10 counterexample: at the concrete state gB (device 1 polled and in
flight, deadline 5 elapsed at clock 10, device 2 deactivated) the tick does
advance the cursor onto the null slot at index 2 and broadcasts nothing,
but it increments the loss counter (for the elapsed deadline) and leaves
the in-flight flag raised, refuting the claimed unchanged loss counter and
cleared in-flight flag. -/
theorem timeout_onto_null_slot :
    jsGetOpt gB.telem (jsModCursor gB.cursor gB.registrar.length) = none ∧
    gB.inflight = true ∧
    runGatewayOrchestrator e0 gB =
      some ({ gB with packetLoss := gB.packetLoss + 1, cursor := some 2 }, []) ∧
    ({ gB with packetLoss := gB.packetLoss + 1, cursor := some 2 } : GW).inflight
      = true ∧
    gB.packetLoss + 1 ≠ gB.packetLoss := by
  refine ⟨?_, ?_, ?_, ?_, ?_⟩ <;> decide

/-- C10 amended: when the advanced cursor lands on a null telemetry slot
(a deactivated device, or any position of an empty registry), the tick
broadcasts no token and performs no local telemetry or property submission;
if no request was in flight the in-flight flag stays false and the loss
counter is unchanged, while on a timeout tick the loss counter increments
by one for the elapsed deadline and the in-flight flag remains raised. -/
theorem null_slot_tick_amended (e : Env) (s : GW)
    (hnull : jsGetOpt s.telem (jsModCursor s.cursor s.registrar.length) = none) :
    (s.inflight = false →
       runGatewayOrchestrator e s =
         some ({ s with cursor := jsModCursor s.cursor s.registrar.length }, [])) ∧
    (s.inflight = true → e.now > s.timerRadio →
       runGatewayOrchestrator e s =
         some ({ s with packetLoss := s.packetLoss + 1,
                        cursor := jsModCursor s.cursor s.registrar.length }, [])) := by
  constructor
  · intro hin2
    have hin : ¬(s.inflight = true) := by rw [hin2]; simp
    unfold runGatewayOrchestrator
    rw [if_neg hin]
    dsimp only
    rw [if_pos hin2, request_next_null e s hnull]
    rfl
  · intro hin ht
    unfold runGatewayOrchestrator
    rw [if_pos hin, if_pos ht,
        request_next_null e { s with packetLoss := s.packetLoss + 1 } hnull]
    dsimp only
    rw [if_neg (by rw [hin]; simp : ¬(s.inflight = false))]

/-- C10 witness: the amended null-slot law at the concrete deactivated
state gB, both for a fresh tick (no request in flight) and for the timeout
tick. -/
theorem null_slot_tick_witness :
    runGatewayOrchestrator e0 { gB with inflight := false } =
      some ({ gB with inflight := false,
                      cursor := jsModCursor gB.cursor gB.registrar.length }, []) ∧
    runGatewayOrchestrator e0 gB =
      some ({ gB with packetLoss := gB.packetLoss + 1,
                      cursor := jsModCursor gB.cursor gB.registrar.length }, []) :=
  ⟨(null_slot_tick_amended e0 { gB with inflight := false } (by decide)).1 rfl,
   (null_slot_tick_amended e0 gB (by decide)).2 rfl (by decide)⟩

/-- C1 witness: the amended frame law applied to the concrete stray temp
event from sender 300 while device 1 is polled: the resulting state gA1
keeps every field but the reopened slot-2 buffer, the re-armed radio timer
and the cursor moved to the sender's index. -/
theorem stray_event_frame_witness :
    gA1.registrar = gA.registrar ∧ gA1.packetLoss = gA.packetLoss ∧
    gA1.inflight = gA.inflight ∧ gA1.identity = gA.identity ∧
    gA1.timerGateway = gA.timerGateway ∧ gA1.logbuf = gA.logbuf ∧
    gA1.timerRadio = setTimerRadioRequest 10 none ∧
    (("temp" : String).take 2 ≠ "d:" →
       gA1.cursor = some (jsIndexOf gA.registrar 300)) ∧
    (∀ j : Nat, j ≠ (jsIndexOf gA.registrar 300).toNat →
       gA1.telem[j]? = gA.telem[j]? ∧ gA1.prop[j]? = gA.prop[j]?) :=
  stray_event_frame gA "temp" 21 300 0 0 10 gA1 []
    (by decide) (by decide) (by decide) (by decide)
